import Mathlib

/-!
Verification development for the PostgreSQL logical-replication capture
source of pgcapture (`pkg/source/postgres.go` and the earlier revision of
the same file).  The Go code is shallowly embedded: pure computations are
translated to Lean functions; collaborator calls (connect, identify,
start-replication, decode, schema refresh, channel operations) are
represented by their outcomes, supplied as explicit inputs; Go machine
integers are modelled as `Nat`/`Int` with explicit two's-complement
wrapping where the Go code can overflow; Go's truncated integer division
is `Int.tdiv` / `Int.tmod`.
-/

namespace PGCapture

/-! ### Time conversion (`PGTime2Time`)

```go
func PGTime2Time(ts uint64) time.Time {
    micro := microsecFromUnixEpochToY2K + int64(ts)
    return time.Unix(micro/microInSecond, (micro%microInSecond)*nsInSecond)
}
const microInSecond = int64(1e6)
const nsInSecond = int64(1e3)
const microsecFromUnixEpochToY2K = int64(946684800 * 1000000)
```
-/

def microInSecond : Int := 1000000

def nsInSecond : Int := 1000

def microsecFromUnixEpochToY2K : Int := 946684800 * 1000000

/-- Two's-complement wrap of an integer into the `int64` range,
modelling Go `int64` overflow semantics. -/
def wrapInt64 (z : Int) : Int := (z + 2 ^ 63) % 2 ^ 64 - 2 ^ 63

/-- Go conversion `int64(ts)` of a `uint64` value `ts` (reinterpretation of
the low 64 bits as a signed value). -/
def uint64ToInt64 (n : Nat) : Int := wrapInt64 ((n % 2 ^ 64 : Nat) : Int)

/-- The pair of arguments passed to Go's `time.Unix(sec, nsec)`: the
resulting instant is `sec` seconds plus `nsec` nanoseconds after the Unix
epoch. -/
structure GoTime where
  sec : Int
  nsec : Int
  deriving Repr, DecidableEq

/-- The instant denoted by a `GoTime`, in nanoseconds since the Unix
epoch (`time.Unix(sec, nsec)` normalises exactly this quantity). -/
def GoTime.unixNano (t : GoTime) : Int := t.sec * 1000000000 + t.nsec

/-- Embedding of `PGTime2Time`.  Go `+` on `int64` wraps; `/` and `%` on
`int64` truncate toward zero. -/
def PGTime2Time (ts : Nat) : GoTime :=
  let micro : Int := wrapInt64 (microsecFromUnixEpochToY2K + uint64ToInt64 ts)
  ⟨micro.tdiv microInSecond, (micro.tmod microInSecond) * nsInSecond⟩

/-! ### `Setup`

```go
func (p *PGXSource) Setup() (err error) {
    ctx := context.Background()
    p.setupConn, err = pgx.Connect(ctx, p.SetupConnStr)
    if err != nil { return err }
    p.schema = decode.NewPGXSchemaLoader(p.setupConn)
    if err = p.schema.RefreshType(); err != nil { return err }
    p.decoder = decode.NewPGLogicalDecoder(p.schema)
    if _, err = p.setupConn.Exec(ctx, sql.InstallExtension); err != nil {
        return nil
    }
    if p.CreateSlot {
        _, err = p.setupConn.Exec(ctx, sql.CreateLogicalSlot, p.ReplSlot, OutputPlugin)
    }
    return err
}
```
(identical in both revisions). -/

/-- Outcomes of the external calls `Setup` makes, in program order. -/
structure SetupEnv where
  connectOk : Bool
  refreshTypeOk : Bool
  installExtensionOk : Bool
  createSlotOk : Bool
  deriving Repr, DecidableEq

inductive SetupErr where
  | connect
  | refreshType
  | createSlot
  deriving Repr, DecidableEq

/-- What a run of `Setup` returns and does: the returned error (`none` is
Go `nil`, i.e. reported success) and whether the slot-creation statement
was executed. -/
structure SetupOutcome where
  result : Option SetupErr
  slotCreationAttempted : Bool
  deriving Repr, DecidableEq

/-- Embedding of `Setup`, parameterised by the `CreateSlot` field and the
outcomes of the external calls. -/
def setup (createSlot : Bool) (env : SetupEnv) : SetupOutcome :=
  if !env.connectOk then ⟨some .connect, false⟩
  else if !env.refreshTypeOk then ⟨some .refreshType, false⟩
  else if !env.installExtensionOk then ⟨none, false⟩
  else if createSlot then
    ⟨if env.createSlotOk then none else some .createSlot, true⟩
  else ⟨none, false⟩

/-! ### `Capture`: start-position choice, error paths, cleanup

Both revisions choose the start position the same way:

```go
var requestLSN pglogrepl.LSN
if cp.LSN != 0 {
    requestLSN = pglogrepl.LSN(cp.LSN)
} else {
    requestLSN = ident.XLogPos
}
```

The `pkg/source/postgres.go` revision prefixes `Capture` with

```go
defer func() { if err != nil { p.cleanup() } }()
```

while the earlier revision has no such deferred cleanup: its error
returns (connect / identify / start-replication failure) leave any
already-opened replication connection open. -/

/-- Outcomes of the external calls `Capture` makes, in program order.
`identify` is `some xLogPos` on success (the server's current WAL
position) and `none` on failure. -/
structure CaptureEnv where
  connectOk : Bool
  identify : Option Nat
  startReplicationOk : Bool
  deriving Repr, DecidableEq

inductive CaptureErr where
  | connect
  | identify
  | startReplication
  deriving Repr, DecidableEq

/-- State on an error return from `Capture`: whether `cleanup()` ran
before the return, and whether the replication connection opened by this
`Capture` call is still open when it returns. -/
structure CaptureErrInfo where
  cleanupCalled : Bool
  replConnOpen : Bool
  deriving Repr, DecidableEq

/-- Result of a `Capture` call: on success, the replication start
position requested from the server (which is also stored into `ackLsn`);
on failure, which call failed and the cleanup state. -/
inductive CaptureResult where
  | ok (requestLSN : Nat) (ackLsn : Nat)
  | err (e : CaptureErr) (info : CaptureErrInfo)
  deriving Repr, DecidableEq

/-- `DetermineStart`: the start-position choice common to both revisions.
`cpLSN` is the checkpoint's LSN, `xLogPos` the position reported by
`IdentifySystem`. -/
def determineStart (cpLSN xLogPos : Nat) : Nat :=
  if cpLSN ≠ 0 then cpLSN else xLogPos

/-- Embedding of `Capture` from `pkg/source/postgres.go` (the revision
with `defer func() { if err != nil { p.cleanup() } }()`).  `cleanup`
closes the replication connection when it is non-nil, so no error return
leaves it open. -/
def capturePG (cpLSN : Nat) (env : CaptureEnv) : CaptureResult :=
  if !env.connectOk then .err .connect ⟨true, false⟩
  else
    match env.identify with
    | none => .err .identify ⟨true, false⟩
    | some xLogPos =>
      if !env.startReplicationOk then .err .startReplication ⟨true, false⟩
      else .ok (determineStart cpLSN xLogPos) (determineStart cpLSN xLogPos)

/-- Embedding of `Capture` from the earlier revision, which has no
deferred cleanup: after a successful connect, a failing identify or
start-replication call returns the error with the replication connection
still open. -/
def capturePart0 (cpLSN : Nat) (env : CaptureEnv) : CaptureResult :=
  if !env.connectOk then .err .connect ⟨false, false⟩
  else
    match env.identify with
    | none => .err .identify ⟨false, true⟩
    | some xLogPos =>
      if !env.startReplicationOk then .err .startReplication ⟨false, true⟩
      else .ok (determineStart cpLSN xLogPos) (determineStart cpLSN xLogPos)

/-! ### The fetch loop (`fetching`, earlier revision)

```go
func (p *PGXSource) fetching(changes chan Change) (err error) {
    reportInterval := time.Second * 5
    nextReportTime := time.Now().Add(reportInterval)
    for {
        if time.Now().After(nextReportTime) {
            if err = pglogrepl.SendStandbyStatusUpdate(..., StandbyStatusUpdate{WALWritePosition: p.committedLSN()}); err != nil {
                return err
            }
            nextReportTime = time.Now().Add(reportInterval)
            if atomic.LoadInt64(&p.stopped) == 1 { return nil }
        }
        ctx, cancel := context.WithDeadline(context.Background(), nextReportTime)
        msg, err := p.replConn.ReceiveMessage(ctx)
        cancel()
        if err != nil {
            if pgconn.Timeout(err) { continue }
            return err
        }
        switch msg := msg.(type) {
        case *pgproto3.CopyData:
            switch msg.Data[0] {
            case pglogrepl.PrimaryKeepaliveMessageByteID:
                pkm, err := pglogrepl.ParsePrimaryKeepaliveMessage(msg.Data[1:])
                if err != nil { return err }
                if pkm.ReplyRequested { nextReportTime = time.Time{} }
            case pglogrepl.XLogDataByteID:
                xld, err := pglogrepl.ParseXLogData(msg.Data[1:])
                if err != nil { return err }
                m, err := p.decoder.Decode(xld.WALData)
                if err != nil { return err }
                if m != nil {
                    switch msg := m.Type.(type) {
                    case *pb.Message_Begin:
                        p.commitTime = PGTime2Time(msg.Begin.CommitTime)
                    case *pb.Message_Change:
                        if decode.Ignore(msg.Change) {
                            continue
                        } else if decode.IsDDL(msg.Change) {
                            if err = p.schema.RefreshType(); err != nil { return err }
                        }
                    }
                    changes <- Change{
                        Checkpoint: Checkpoint{LSN: uint64(xld.WALStart) + uint64(len(xld.WALData)), Time: p.commitTime},
                        Message:    m,
                    }
                }
            }
        default:
            return errors.New("unexpected message")
        }
    }
}
```

The embedding models time instants as `Nat` (Go's zero `time.Time{}` is
`0`; `time.Now()` is always positive; `a.After(b)` is `b < a`).  Each
loop iteration is driven by a `Tick` carrying the iteration's wall-clock
reading and the outcomes of the external calls the iteration can make:
the atomic loads of `ackLsn` and `stopped`, the result of
`SendStandbyStatusUpdate` if one is sent, and the received message with
the parse/decode results the collaborators return for it (`ParseXLogData`
and `Decode` are external, so an `XLogRecord` carries its payload only as
its byte length together with the decoder's verdict on it). -/

/-- Report interval: 5 seconds, in nanoseconds (the unit is irrelevant to
every property proved below). -/
def reportInterval : Nat := 5000000000

/-- Decoded message (`pb.Message`), as far as this loop inspects it: a
transaction-begin marker with its commit timestamp, a row/DDL change with
the classifications `decode.Ignore` and `decode.IsDDL` give it, or any
other message type (e.g. a commit marker). -/
inductive PBMsg where
  | txnBegin (commitTS : Nat)
  | change (ignorable : Bool) (isDDL : Bool)
  | other
  deriving Repr, DecidableEq

/-- Decoder verdict on a WAL-data payload: `Decode` returned an error,
returned `nil, nil` (decoder-internal filtering), or returned a message. -/
inductive DecodeResult where
  | failure
  | missing
  | msg (m : PBMsg)
  deriving Repr, DecidableEq

/-- A parsed `XLogData` record: the WAL start offset, the byte length of
`WALData`, and the decoder's verdict on `WALData`. -/
structure XLogRecord where
  walStart : Nat
  walDataLen : Nat
  dec : DecodeResult
  deriving Repr, DecidableEq

/-- The outcome of `ReceiveMessage` for one iteration: a deadline expiry,
any other receive failure, a `CopyData` whose first byte is the keepalive
ID (`some replyRequested` if `ParsePrimaryKeepaliveMessage` succeeds,
`none` if it fails), a `CopyData` whose first byte is the XLog-data ID
(`none` if `ParseXLogData` fails), a `CopyData` with any other first byte,
or a non-`CopyData` message. -/
inductive RecvMsg where
  | timeout
  | failure
  | keepalive (parsed : Option Bool)
  | xlog (parsed : Option XLogRecord)
  | otherCopyData
  | nonCopyData
  deriving Repr, DecidableEq

/-- One loop iteration's inputs. -/
structure Tick where
  now : Nat
  ack : Nat
  sendOk : Bool
  stopped : Bool
  recv : RecvMsg
  deriving Repr, DecidableEq

/-- Loop-local mutable state: the next report deadline, `p.commitTime`
(`none` models Go's zero `time.Time` before any begin marker), and the
number of `RefreshType` calls the loop has made (used to index the
refresh oracle). -/
structure FetchState where
  nextReportTime : Nat
  commitTime : Option GoTime
  refreshCount : Nat
  deriving Repr, DecidableEq

/-- `Checkpoint{LSN, Time}`. -/
structure Checkpoint where
  lsn : Nat
  time : Option GoTime
  deriving Repr, DecidableEq

/-- `Change{Checkpoint, Message}`. -/
structure Change where
  checkpoint : Checkpoint
  message : PBMsg
  deriving Repr, DecidableEq

/-- Observable actions of the loop, in the order they are performed:
a successful standby status report carrying the acknowledged LSN, a call
to `Decode` on a record's payload, the n-th call to `RefreshType`, and a
`Change` sent on the output channel. -/
inductive Event where
  | report (ack : Nat)
  | decodeCall (walStart walDataLen : Nat)
  | refreshCall (idx : Nat)
  | emit (c : Change)
  deriving Repr, DecidableEq

/-- The error values `fetching` can return. -/
inductive FetchErr where
  | sendFailed
  | recvFailed
  | keepaliveParse
  | xlogParse
  | decodeFailed
  | refreshFailed (idx : Nat)
  | unexpectedMessage
  deriving Repr, DecidableEq

/-- Result of one iteration: continue with a new state, return `nil`
(stop observed), or return an error. -/
inductive StepResult where
  | next (s : FetchState) (events : List Event)
  | quit (events : List Event)
  | fail (e : FetchErr) (events : List Event)
  deriving Repr, DecidableEq

def StepResult.events : StepResult → List Event
  | .next _ ev => ev
  | .quit ev => ev
  | .fail _ ev => ev

/-- Forward a change on the output channel:
`changes <- Change{Checkpoint{LSN: WALStart + len(WALData), Time: p.commitTime}, Message: m}`. -/
def emitChange (s : FetchState) (x : XLogRecord) (m : PBMsg) (ev : List Event) : StepResult :=
  .next s (ev ++ [Event.emit ⟨⟨x.walStart + x.walDataLen, s.commitTime⟩, m⟩])

/-- The receive-and-dispatch part of one iteration (everything after the
report check).  `refreshOk n` is the outcome of the n-th `RefreshType`
call; `r` is the outcome of `ReceiveMessage`. -/
def dispatch (refreshOk : Nat → Bool) (s : FetchState) (r : RecvMsg) (ev : List Event) : StepResult :=
  match r with
  | .timeout => .next s ev
  | .failure => .fail .recvFailed ev
  | .keepalive none => .fail .keepaliveParse ev
  | .keepalive (some replyRequested) =>
    if replyRequested then .next { s with nextReportTime := 0 } ev
    else .next s ev
  | .xlog none => .fail .xlogParse ev
  | .xlog (some x) =>
    let ev1 := ev ++ [Event.decodeCall x.walStart x.walDataLen]
    match x.dec with
    | .failure => .fail .decodeFailed ev1
    | .missing => .next s ev1
    | .msg (.txnBegin commitTS) =>
      emitChange { s with commitTime := some (PGTime2Time commitTS) } x (.txnBegin commitTS) ev1
    | .msg (.change ignorable isDDL) =>
      if ignorable then .next s ev1
      else if isDDL then
        let idx := s.refreshCount
        let ev2 := ev1 ++ [Event.refreshCall idx]
        if refreshOk idx then
          emitChange { s with refreshCount := idx + 1 } x (.change ignorable isDDL) ev2
        else .fail (.refreshFailed idx) ev2
      else emitChange s x (.change ignorable isDDL) ev1
    | .msg .other => emitChange s x .other ev1
  | .otherCopyData => .next s ev
  | .nonCopyData => .fail .unexpectedMessage ev

/-- One full iteration of the `for` loop: the report check, then
receive-and-dispatch. -/
def fetchStep (refreshOk : Nat → Bool) (s : FetchState) (t : Tick) : StepResult :=
  if s.nextReportTime < t.now then
    if t.sendOk then
      let s1 : FetchState := { s with nextReportTime := t.now + reportInterval }
      if t.stopped then .quit [Event.report t.ack]
      else dispatch refreshOk s1 t.recv [Event.report t.ack]
    else .fail .sendFailed []
  else dispatch refreshOk s t.recv []

/-- How a run of the loop ended: the supplied ticks ran out with the loop
still going, the loop returned `nil` after observing a stop request, or it
returned an error. -/
inductive LoopOutcome where
  | running
  | stopRequested
  | failed (e : FetchErr)
  deriving Repr, DecidableEq

/-- The loop, driven by a finite list of ticks: the event trace it
produces and how it ended. -/
def fetchLoop (refreshOk : Nat → Bool) (s : FetchState) : List Tick → List Event × LoopOutcome
  | [] => ([], .running)
  | t :: ts =>
    match fetchStep refreshOk s t with
    | .next s1 ev =>
      let r := fetchLoop refreshOk s1 ts
      (ev ++ r.1, r.2)
    | .quit ev => (ev, .stopRequested)
    | .fail e ev => (ev, .failed e)

/-- Loop entry: `nextReportTime := time.Now().Add(reportInterval)`,
`p.commitTime` still its zero value, no refresh calls yet. -/
def fetchInit (now0 : Nat) : FetchState :=
  ⟨now0 + reportInterval, none, 0⟩

/-- The changes forwarded on the output channel, in order, in a trace. -/
def emittedChanges (evs : List Event) : List Change :=
  evs.filterMap fun e =>
    match e with
    | .emit c => some c
    | _ => none

/-- The `Checkpoint.LSN` values forwarded, in order. -/
def emittedLSNs (evs : List Event) : List Nat :=
  (emittedChanges evs).map fun c => c.checkpoint.lsn

/-- The end offset (WAL start + payload length) of the XLog record a
receive outcome carries, if any. -/
def recvEndLSN (r : RecvMsg) : List Nat :=
  match r with
  | .xlog (some x) => [x.walStart + x.walDataLen]
  | _ => []

/-- The end offsets of all XLog records delivered by a tick list, in
arrival order. -/
def tickEndLSNs (ts : List Tick) : List Nat :=
  (ts.map fun t => recvEndLSN t.recv).flatten

/-! ### Goroutine exit and `Stop` (earlier revision)

```go
go func() {
    defer p.cleanup()
    defer close(p.stop)
    defer close(changes)
    if err = p.fetching(changes); err != nil {
        log.Fatalf("Logical replication failed: %v", err)
    }
}()
...
func (p *PGXSource) Stop() {
    atomic.StoreInt64(&p.stopped, 1)
    if p.stop != nil { <-p.stop }
}
```

`log.Fatalf` calls `os.Exit`, which terminates the process immediately
without running deferred functions; deferred functions otherwise run in
last-in-first-out order, so the clean exit path is: close the output
channel, close the stop channel, then `cleanup()` (close both
connections).  `Stop()` returns as soon as its receive on the stop
channel completes, which is enabled the moment the stop channel is
closed. -/

/-- The actions the goroutine performs after `fetching` returns. -/
inductive TermEvent where
  | fatalProcessExit (e : FetchErr)
  | closeChanges
  | closeStopChannel
  | runCleanup
  deriving Repr, DecidableEq

/-- The ordered sequence of actions after the loop ends: on a non-nil
error, `log.Fatalf` exits the process and the deferred calls are skipped;
on a nil return, the deferred calls run in LIFO order. -/
def goroutineExit : LoopOutcome → List TermEvent
  | .running => []
  | .failed e => [.fatalProcessExit e]
  | .stopRequested => [.closeChanges, .closeStopChannel, .runCleanup]

/-- The clean-shutdown action sequence. -/
def cleanShutdownEvents : List TermEvent := goroutineExit .stopRequested

/-- Position in the clean-shutdown sequence from which `Stop()`'s receive
on the stop channel can complete, i.e. from which `Stop()` may return. -/
def stopReturnEnabledAt : Nat :=
  List.indexOf TermEvent.closeStopChannel cleanShutdownEvents

/-- A Go buffered channel: its buffered elements and whether it has been
closed. -/
structure GoChan (α : Type) where
  buffer : List α
  closed : Bool

/-- `close(ch)`. -/
def GoChan.close (c : GoChan α) : GoChan α := { c with closed := true }

/-- The values a receiver can still obtain from a channel: closing a Go
channel does not discard buffered elements. -/
def GoChan.drain (c : GoChan α) : List α := c.buffer


def refreshAlwaysOk : Nat → Bool := fun _ => true

def tickChangeA : Tick :=
  ⟨1, 0, true, false, RecvMsg.xlog (some ⟨100, 20, DecodeResult.msg (PBMsg.change false false)⟩)⟩

def tickChangeDDL : Tick :=
  ⟨1, 0, true, false, RecvMsg.xlog (some ⟨120, 5, DecodeResult.msg (PBMsg.change false true)⟩)⟩

def tickBadKeepalive : Tick := ⟨1, 0, true, false, RecvMsg.keepalive none⟩

def tickUnexpected : Tick := ⟨1, 0, true, false, RecvMsg.nonCopyData⟩

/-- Events the report check contributes to an iteration. -/
def reportPre (s : FetchState) (t : Tick) : List Event :=
  if s.nextReportTime < t.now then [Event.report t.ack] else []

/-- The loop state after an iteration that processes a DDL change whose
refresh succeeds. -/
def afterDDL (s : FetchState) (t : Tick) : FetchState :=
  if s.nextReportTime < t.now then
    { s with nextReportTime := t.now + reportInterval, refreshCount := s.refreshCount + 1 }
  else
    { s with refreshCount := s.refreshCount + 1 }

/-! ### Lemmas about the fetch loop -/

theorem emittedLSNs_append (a b : List Event) :
    emittedLSNs (a ++ b) = emittedLSNs a ++ emittedLSNs b := by
  simp [emittedLSNs, emittedChanges, List.filterMap_append]

theorem emittedLSNs_report (a : Nat) : emittedLSNs [Event.report a] = [] := by
  simp [emittedLSNs, emittedChanges]

theorem tickEndLSNs_cons (t : Tick) (ts : List Tick) :
    tickEndLSNs (t :: ts) = recvEndLSN t.recv ++ tickEndLSNs ts := by
  simp [tickEndLSNs]

theorem dispatch_events_eq (refreshOk : Nat → Bool) (s : FetchState) (r : RecvMsg)
    (ev : List Event) : ∃ tail, (dispatch refreshOk s r ev).events = ev ++ tail := by
  cases r with
  | timeout => exact ⟨[], by simp [dispatch, StepResult.events]⟩
  | failure => exact ⟨[], by simp [dispatch, StepResult.events]⟩
  | keepalive p =>
    cases p with
    | none => exact ⟨[], by simp [dispatch, StepResult.events]⟩
    | some rr => cases rr <;> exact ⟨[], by simp [dispatch, StepResult.events]⟩
  | xlog p =>
    cases p with
    | none => exact ⟨[], by simp [dispatch, StepResult.events]⟩
    | some x =>
      cases hd : x.dec with
      | failure =>
        exact ⟨[Event.decodeCall x.walStart x.walDataLen], by simp [dispatch, hd, StepResult.events]⟩
      | missing =>
        exact ⟨[Event.decodeCall x.walStart x.walDataLen], by simp [dispatch, hd, StepResult.events]⟩
      | msg m =>
        cases m with
        | txnBegin ct =>
          exact ⟨[Event.decodeCall x.walStart x.walDataLen,
            Event.emit ⟨⟨x.walStart + x.walDataLen, some (PGTime2Time ct)⟩, PBMsg.txnBegin ct⟩],
            by simp [dispatch, hd, emitChange, StepResult.events]⟩
        | change ig dd =>
          cases ig with
          | true => exact ⟨[Event.decodeCall x.walStart x.walDataLen], by simp [dispatch, hd, StepResult.events]⟩
          | false =>
            cases dd with
            | false =>
              exact ⟨[Event.decodeCall x.walStart x.walDataLen,
                Event.emit ⟨⟨x.walStart + x.walDataLen, s.commitTime⟩, PBMsg.change false false⟩],
                by simp [dispatch, hd, emitChange, StepResult.events]⟩
            | true =>
              cases hro : refreshOk s.refreshCount with
              | true =>
                exact ⟨[Event.decodeCall x.walStart x.walDataLen, Event.refreshCall s.refreshCount,
                  Event.emit ⟨⟨x.walStart + x.walDataLen, s.commitTime⟩, PBMsg.change false true⟩],
                  by simp [dispatch, hd, hro, emitChange, StepResult.events]⟩
              | false =>
                exact ⟨[Event.decodeCall x.walStart x.walDataLen, Event.refreshCall s.refreshCount],
                  by simp [dispatch, hd, hro, StepResult.events]⟩
        | other =>
          exact ⟨[Event.decodeCall x.walStart x.walDataLen,
            Event.emit ⟨⟨x.walStart + x.walDataLen, s.commitTime⟩, PBMsg.other⟩],
            by simp [dispatch, hd, emitChange, StepResult.events]⟩
  | otherCopyData => exact ⟨[], by simp [dispatch, StepResult.events]⟩
  | nonCopyData => exact ⟨[], by simp [dispatch, StepResult.events]⟩

theorem dispatch_emittedLSNs (refreshOk : Nat → Bool) (s : FetchState) (r : RecvMsg)
    (ev : List Event) :
    emittedLSNs (dispatch refreshOk s r ev).events = emittedLSNs ev ++ recvEndLSN r ∨
    emittedLSNs (dispatch refreshOk s r ev).events = emittedLSNs ev := by
  cases r with
  | timeout => exact Or.inr (by simp [dispatch, StepResult.events])
  | failure => exact Or.inr (by simp [dispatch, StepResult.events])
  | keepalive p =>
    cases p with
    | none => exact Or.inr (by simp [dispatch, StepResult.events])
    | some rr => cases rr <;> exact Or.inr (by simp [dispatch, StepResult.events])
  | xlog p =>
    cases p with
    | none => exact Or.inr (by simp [dispatch, StepResult.events])
    | some x =>
      cases hd : x.dec with
      | failure =>
        exact Or.inr (by
          simp [dispatch, hd, StepResult.events, emittedLSNs_append, emittedLSNs, emittedChanges])
      | missing =>
        exact Or.inr (by
          simp [dispatch, hd, StepResult.events, emittedLSNs_append, emittedLSNs, emittedChanges])
      | msg m =>
        cases m with
        | txnBegin ct =>
          exact Or.inl (by
            simp [dispatch, hd, emitChange, StepResult.events, recvEndLSN,
              emittedLSNs_append, emittedLSNs, emittedChanges])
        | change ig dd =>
          cases ig with
          | true =>
            exact Or.inr (by
              simp [dispatch, hd, StepResult.events, emittedLSNs_append, emittedLSNs, emittedChanges])
          | false =>
            cases dd with
            | false =>
              exact Or.inl (by
                simp [dispatch, hd, emitChange, StepResult.events, recvEndLSN,
                  emittedLSNs_append, emittedLSNs, emittedChanges])
            | true =>
              cases hro : refreshOk s.refreshCount with
              | true =>
                exact Or.inl (by
                  simp [dispatch, hd, hro, emitChange, StepResult.events, recvEndLSN,
                    emittedLSNs_append, emittedLSNs, emittedChanges])
              | false =>
                exact Or.inr (by
                  simp [dispatch, hd, hro, StepResult.events, emittedLSNs_append,
                    emittedLSNs, emittedChanges])
        | other =>
          exact Or.inl (by
            simp [dispatch, hd, emitChange, StepResult.events, recvEndLSN,
              emittedLSNs_append, emittedLSNs, emittedChanges])
  | otherCopyData => exact Or.inr (by simp [dispatch, StepResult.events])
  | nonCopyData => exact Or.inr (by simp [dispatch, StepResult.events])

theorem dispatch_emitted_sublist (refreshOk : Nat → Bool) (s : FetchState) (r : RecvMsg)
    (ev : List Event) :
    List.Sublist (emittedLSNs (dispatch refreshOk s r ev).events)
      (emittedLSNs ev ++ recvEndLSN r) := by
  rcases dispatch_emittedLSNs refreshOk s r ev with h | h
  · rw [h]
  · rw [h]; exact List.sublist_append_left _ _


theorem dispatch_events_char (refreshOk : Nat → Bool) (s : FetchState) (r : RecvMsg)
    (ev : List Event) :
    ∃ tail, (dispatch refreshOk s r ev).events = ev ++ tail ∧
      ∀ c : Change, Event.emit c ∈ tail →
        ∃ x, r = RecvMsg.xlog (some x) ∧
          c.checkpoint.lsn = x.walStart + x.walDataLen := by
  cases r with
  | timeout => exact ⟨[], by simp [dispatch, StepResult.events], by simp⟩
  | failure => exact ⟨[], by simp [dispatch, StepResult.events], by simp⟩
  | keepalive p =>
    cases p with
    | none => exact ⟨[], by simp [dispatch, StepResult.events], by simp⟩
    | some rr => cases rr <;> exact ⟨[], by simp [dispatch, StepResult.events], by simp⟩
  | xlog p =>
    cases p with
    | none => exact ⟨[], by simp [dispatch, StepResult.events], by simp⟩
    | some x =>
      cases hd : x.dec with
      | failure =>
        refine ⟨[Event.decodeCall x.walStart x.walDataLen],
          by simp [dispatch, hd, StepResult.events], ?_⟩
        intro c hc
        simp at hc
      | missing =>
        refine ⟨[Event.decodeCall x.walStart x.walDataLen],
          by simp [dispatch, hd, StepResult.events], ?_⟩
        intro c hc
        simp at hc
      | msg m =>
        cases m with
        | txnBegin ct =>
          refine ⟨[Event.decodeCall x.walStart x.walDataLen,
            Event.emit ⟨⟨x.walStart + x.walDataLen, some (PGTime2Time ct)⟩, PBMsg.txnBegin ct⟩],
            by simp [dispatch, hd, emitChange, StepResult.events], ?_⟩
          intro c hc
          simp at hc
          subst hc
          exact ⟨x, rfl, rfl⟩
        | change ig dd =>
          cases ig with
          | true =>
            refine ⟨[Event.decodeCall x.walStart x.walDataLen],
              by simp [dispatch, hd, StepResult.events], ?_⟩
            intro c hc
            simp at hc
          | false =>
            cases dd with
            | false =>
              refine ⟨[Event.decodeCall x.walStart x.walDataLen,
                Event.emit ⟨⟨x.walStart + x.walDataLen, s.commitTime⟩, PBMsg.change false false⟩],
                by simp [dispatch, hd, emitChange, StepResult.events], ?_⟩
              intro c hc
              simp at hc
              subst hc
              exact ⟨x, rfl, rfl⟩
            | true =>
              cases hro : refreshOk s.refreshCount with
              | true =>
                refine ⟨[Event.decodeCall x.walStart x.walDataLen,
                  Event.refreshCall s.refreshCount,
                  Event.emit ⟨⟨x.walStart + x.walDataLen, s.commitTime⟩, PBMsg.change false true⟩],
                  by simp [dispatch, hd, hro, emitChange, StepResult.events], ?_⟩
                intro c hc
                simp at hc
                subst hc
                exact ⟨x, rfl, rfl⟩
              | false =>
                refine ⟨[Event.decodeCall x.walStart x.walDataLen,
                  Event.refreshCall s.refreshCount],
                  by simp [dispatch, hd, hro, StepResult.events], ?_⟩
                intro c hc
                simp at hc
        | other =>
          refine ⟨[Event.decodeCall x.walStart x.walDataLen,
            Event.emit ⟨⟨x.walStart + x.walDataLen, s.commitTime⟩, PBMsg.other⟩],
            by simp [dispatch, hd, emitChange, StepResult.events], ?_⟩
          intro c hc
          simp at hc
          subst hc
          exact ⟨x, rfl, rfl⟩
  | otherCopyData => exact ⟨[], by simp [dispatch, StepResult.events], by simp⟩
  | nonCopyData => exact ⟨[], by simp [dispatch, StepResult.events], by simp⟩

theorem dispatch_emit_mem (refreshOk : Nat → Bool) (s : FetchState) (r : RecvMsg)
    (ev : List Event) (c : Change)
    (h : Event.emit c ∈ (dispatch refreshOk s r ev).events) :
    Event.emit c ∈ ev ∨
      ∃ x, r = RecvMsg.xlog (some x) ∧
        c.checkpoint.lsn = x.walStart + x.walDataLen := by
  rcases dispatch_events_char refreshOk s r ev with ⟨tail, htail, hmem⟩
  rw [htail, List.mem_append] at h
  rcases h with h | h
  · exact Or.inl h
  · exact Or.inr (hmem c h)

theorem step_emit_mem (refreshOk : Nat → Bool) (s : FetchState) (t : Tick) (c : Change)
    (h : Event.emit c ∈ (fetchStep refreshOk s t).events) :
    ∃ x, t.recv = RecvMsg.xlog (some x) ∧
      c.checkpoint.lsn = x.walStart + x.walDataLen := by
  rw [fetchStep] at h
  split at h
  · split at h
    · split at h
      · simp [StepResult.events] at h
      · rcases dispatch_emit_mem _ _ _ _ _ h with h1 | h2
        · simp at h1
        · exact h2
    · simp [StepResult.events] at h
  · rcases dispatch_emit_mem _ _ _ _ _ h with h1 | h2
    · simp at h1
    · exact h2

theorem step_emitted_sublist (refreshOk : Nat → Bool) (s : FetchState) (t : Tick) :
    List.Sublist (emittedLSNs (fetchStep refreshOk s t).events) (recvEndLSN t.recv) := by
  rw [fetchStep]
  split
  · split
    · split
      · simp [StepResult.events, emittedLSNs, emittedChanges]
      · have hsub := dispatch_emitted_sublist refreshOk
          { s with nextReportTime := t.now + reportInterval } t.recv [Event.report t.ack]
        simpa [emittedLSNs_report] using hsub
    · simp [StepResult.events, emittedLSNs, emittedChanges]
  · have hsub := dispatch_emitted_sublist refreshOk s t.recv []
    simpa [emittedLSNs, emittedChanges] using hsub

theorem loop_emitted_sublist (refreshOk : Nat → Bool) :
    ∀ (ts : List Tick) (s : FetchState),
      List.Sublist (emittedLSNs (fetchLoop refreshOk s ts).1) (tickEndLSNs ts) := by
  intro ts
  induction ts with
  | nil =>
    intro s
    simp [fetchLoop, tickEndLSNs, emittedLSNs, emittedChanges]
  | cons t ts ih =>
    intro s
    have hstep := step_emitted_sublist refreshOk s t
    rw [tickEndLSNs_cons]
    cases hfs : fetchStep refreshOk s t with
    | next s1 ev =>
      rw [hfs] at hstep
      simp only [fetchLoop, hfs]
      rw [emittedLSNs_append]
      exact List.Sublist.append hstep (ih s1)
    | quit ev =>
      rw [hfs] at hstep
      simp only [fetchLoop, hfs]
      exact hstep.trans (List.sublist_append_left _ _)
    | fail e ev =>
      rw [hfs] at hstep
      simp only [fetchLoop, hfs]
      exact hstep.trans (List.sublist_append_left _ _)

/-- C2: within a single capture session, every forwarded `Change` carries a
`Checkpoint.LSN` equal to the WAL start offset of the XLog record that
produced it plus the byte length of that record's payload; and when the
server delivers XLog records with non-decreasing end offsets (the WAL
contract), the sequence of emitted `Checkpoint.LSN` values is
non-decreasing. -/
theorem emitted_checkpoint_lsn_correct_monotone :
    (∀ (refreshOk : Nat → Bool) (s : FetchState) (t : Tick) (c : Change),
        Event.emit c ∈ (fetchStep refreshOk s t).events →
        ∃ x, t.recv = RecvMsg.xlog (some x) ∧
          c.checkpoint.lsn = x.walStart + x.walDataLen) ∧
    (∀ (refreshOk : Nat → Bool) (s : FetchState) (ts : List Tick),
        List.Pairwise (· ≤ ·) (tickEndLSNs ts) →
        List.Pairwise (· ≤ ·) (emittedLSNs (fetchLoop refreshOk s ts).1)) :=
  ⟨fun refreshOk s t c h => step_emit_mem refreshOk s t c h,
   fun refreshOk s ts hp => List.Pairwise.sublist (loop_emitted_sublist refreshOk ts s) hp⟩

theorem emitted_checkpoint_lsn_witness :
    (∃ x, tickChangeA.recv = RecvMsg.xlog (some x) ∧
      (⟨⟨120, none⟩, PBMsg.change false false⟩ : Change).checkpoint.lsn =
        x.walStart + x.walDataLen) ∧
    List.Pairwise (· ≤ ·)
      (emittedLSNs (fetchLoop refreshAlwaysOk (fetchInit 0) [tickChangeA, tickChangeDDL]).1) :=
  ⟨emitted_checkpoint_lsn_correct_monotone.1 refreshAlwaysOk (fetchInit 0) tickChangeA
      ⟨⟨120, none⟩, PBMsg.change false false⟩ (by decide),
   emitted_checkpoint_lsn_correct_monotone.2 refreshAlwaysOk (fetchInit 0)
      [tickChangeA, tickChangeDDL] (by decide)⟩

/-- C5: a keepalive message whose payload fails to parse makes the fetch
loop return that parse error at once — a malformed keepalive is fatal to
the running loop (provided the iteration reaches the receive, i.e. the
report step neither failed nor observed a stop). -/
theorem malformed_keepalive_fatal (refreshOk : Nat → Bool) (s : FetchState) (t : Tick)
    (ts : List Tick)
    (hk : t.recv = RecvMsg.keepalive none)
    (hreach : s.nextReportTime < t.now → t.sendOk = true ∧ t.stopped = false) :
    (fetchLoop refreshOk s (t :: ts)).2 = LoopOutcome.failed FetchErr.keepaliveParse := by
  have hstep : ∃ ev, fetchStep refreshOk s t = StepResult.fail FetchErr.keepaliveParse ev := by
    rw [fetchStep]
    split
    case isTrue hlt =>
      rcases hreach hlt with ⟨hs, hn⟩
      refine ⟨[Event.report t.ack], ?_⟩
      simp [hs, hn, dispatch, hk]
    case isFalse hlt =>
      refine ⟨[], ?_⟩
      simp [dispatch, hk]
  rcases hstep with ⟨ev, hev⟩
  simp [fetchLoop, hev]

theorem malformed_keepalive_fatal_witness :
    (fetchLoop refreshAlwaysOk (fetchInit 0) [tickBadKeepalive, tickChangeA]).2 =
      LoopOutcome.failed FetchErr.keepaliveParse :=
  malformed_keepalive_fatal refreshAlwaysOk (fetchInit 0) tickBadKeepalive [tickChangeA]
    rfl (by decide)

/-- C6: a well-formed keepalive with reply-requested forces the next
report deadline to the zero time, so the very next loop iteration sends a
standby status report first, regardless of the time remaining in the 5
second interval; a keepalive without reply-requested leaves the loop state,
and hence the report schedule, unchanged. -/
theorem keepalive_reply_forces_report :
    (∀ (refreshOk : Nat → Bool) (s : FetchState) (ev : List Event),
        dispatch refreshOk s (RecvMsg.keepalive (some true)) ev =
          StepResult.next { s with nextReportTime := 0 } ev) ∧
    (∀ (refreshOk : Nat → Bool) (s : FetchState) (t : Tick),
        s.nextReportTime = 0 → 1 ≤ t.now → t.sendOk = true →
        (fetchStep refreshOk s t).events.head? = some (Event.report t.ack)) ∧
    (∀ (refreshOk : Nat → Bool) (s : FetchState) (ev : List Event),
        dispatch refreshOk s (RecvMsg.keepalive (some false)) ev = StepResult.next s ev) := by
  refine ⟨fun refreshOk s ev => by simp [dispatch],
    fun refreshOk s t h0 h1 hs => ?_,
    fun refreshOk s ev => by simp [dispatch]⟩
  rw [fetchStep]
  have hlt : s.nextReportTime < t.now := by omega
  rw [if_pos hlt, hs]
  simp only [if_true]
  by_cases hstop : t.stopped = true
  · rw [if_pos hstop]
    simp [StepResult.events]
  · rw [if_neg hstop]
    rcases dispatch_events_char refreshOk
        { s with nextReportTime := t.now + reportInterval } t.recv [Event.report t.ack]
      with ⟨tail, htail, _⟩
    rw [htail]
    simp

theorem keepalive_reply_forces_report_witness :
    (fetchStep refreshAlwaysOk ⟨0, none, 0⟩ ⟨1, 7, true, false, RecvMsg.timeout⟩).events.head?
      = some (Event.report 7) :=
  keepalive_reply_forces_report.2.1 refreshAlwaysOk ⟨0, none, 0⟩
    ⟨1, 7, true, false, RecvMsg.timeout⟩ rfl (by decide) rfl

theorem capturePG_ok (cpLSN : Nat) (env : CaptureEnv) (req ack : Nat)
    (h : capturePG cpLSN env = CaptureResult.ok req ack) :
    ∃ xpos, env.identify = some xpos ∧ req = determineStart cpLSN xpos := by
  rcases env with ⟨co, idf, sr⟩
  cases co
  · simp [capturePG] at h
  · rcases idf with _ | xpos
    · simp [capturePG] at h
    · cases sr
      · simp [capturePG] at h
      · simp [capturePG] at h
        exact ⟨xpos, rfl, h.1.symm⟩

theorem capturePart0_ok (cpLSN : Nat) (env : CaptureEnv) (req ack : Nat)
    (h : capturePart0 cpLSN env = CaptureResult.ok req ack) :
    ∃ xpos, env.identify = some xpos ∧ req = determineStart cpLSN xpos := by
  rcases env with ⟨co, idf, sr⟩
  cases co
  · simp [capturePart0] at h
  · rcases idf with _ | xpos
    · simp [capturePart0] at h
    · cases sr
      · simp [capturePart0] at h
      · simp [capturePart0] at h
        exact ⟨xpos, rfl, h.1.symm⟩

/-- C1: whenever Capture succeeds, the replication start position it
requested from the server equals the checkpoint's LSN when that is
nonzero, and the server's current WAL position as reported by the
identify step when the checkpoint's LSN is zero (both revisions). -/
theorem capture_start_position (cpLSN : Nat) (env : CaptureEnv) (req ack : Nat)
    (h : capturePG cpLSN env = CaptureResult.ok req ack ∨
         capturePart0 cpLSN env = CaptureResult.ok req ack) :
    (cpLSN ≠ 0 → req = cpLSN) ∧ (cpLSN = 0 → env.identify = some req) := by
  have key : ∃ xpos, env.identify = some xpos ∧ req = determineStart cpLSN xpos := by
    rcases h with h | h
    · exact capturePG_ok cpLSN env req ack h
    · exact capturePart0_ok cpLSN env req ack h
  rcases key with ⟨xpos, hid, hreq⟩
  constructor
  · intro hne
    rw [hreq, determineStart, if_pos hne]
  · intro h0
    rw [hid, hreq, determineStart, if_neg (by simp [h0])]

theorem capture_start_position_witness :
    ((0 : Nat) ≠ 0 → (42 : Nat) = 0) ∧
    ((0 : Nat) = 0 → (⟨true, some 42, true⟩ : CaptureEnv).identify = some 42) :=
  capture_start_position 0 ⟨true, some 42, true⟩ 42 42 (Or.inl (by decide))

theorem capturePG_err (cpLSN : Nat) (env : CaptureEnv) (e : CaptureErr)
    (info : CaptureErrInfo) (h : capturePG cpLSN env = CaptureResult.err e info) :
    info.cleanupCalled = true ∧ info.replConnOpen = false := by
  rcases env with ⟨co, idf, sr⟩
  cases co
  · simp [capturePG] at h
    rw [← h.2]
    exact ⟨rfl, rfl⟩
  · rcases idf with _ | xpos
    · simp [capturePG] at h
      rw [← h.2]
      exact ⟨rfl, rfl⟩
    · cases sr
      · simp [capturePG] at h
        rw [← h.2]
        exact ⟨rfl, rfl⟩
      · simp [capturePG] at h

theorem capturePart0_err (cpLSN : Nat) (env : CaptureEnv) (e : CaptureErr)
    (info : CaptureErrInfo) (h : capturePart0 cpLSN env = CaptureResult.err e info) :
    info.cleanupCalled = false ∧ (e ≠ CaptureErr.connect → info.replConnOpen = true) := by
  rcases env with ⟨co, idf, sr⟩
  cases co
  · simp [capturePart0] at h
    rw [← h.1, ← h.2]
    exact ⟨rfl, fun hc => absurd rfl hc⟩
  · rcases idf with _ | xpos
    · simp [capturePart0] at h
      rw [← h.2]
      exact ⟨rfl, fun _ => rfl⟩
    · cases sr
      · simp [capturePart0] at h
        rw [← h.2]
        exact ⟨rfl, fun _ => rfl⟩
      · simp [capturePart0] at h

/-- C9, counterexample: in the earlier revision, a Capture call whose
IdentifySystem step fails returns the error without calling cleanup,
leaving the just-opened replication connection open. -/
theorem capture_cleanup_counterexample :
    capturePart0 5 ⟨true, none, true⟩ =
      CaptureResult.err CaptureErr.identify ⟨false, true⟩ := by decide

/-- C9, amended: in the `pkg/source/postgres.go` revision every error
return of Capture triggers cleanup before returning, and no connection
opened by the failed call remains open; in the earlier revision Capture
error returns never call cleanup, and every error after a successful
connect leaves the replication connection open. -/
theorem capture_error_cleanup (cpLSN : Nat) (env : CaptureEnv) (e : CaptureErr)
    (info : CaptureErrInfo) :
    (capturePG cpLSN env = CaptureResult.err e info →
      info.cleanupCalled = true ∧ info.replConnOpen = false) ∧
    (capturePart0 cpLSN env = CaptureResult.err e info →
      info.cleanupCalled = false ∧ (e ≠ CaptureErr.connect → info.replConnOpen = true)) :=
  ⟨capturePG_err cpLSN env e info, capturePart0_err cpLSN env e info⟩

theorem capture_error_cleanup_witness :
    ((⟨true, false⟩ : CaptureErrInfo).cleanupCalled = true ∧
      (⟨true, false⟩ : CaptureErrInfo).replConnOpen = false) ∧
    ((⟨false, true⟩ : CaptureErrInfo).cleanupCalled = false ∧
      (⟨false, true⟩ : CaptureErrInfo).replConnOpen = true) :=
  ⟨(capture_error_cleanup 5 ⟨false, none, true⟩ CaptureErr.connect ⟨true, false⟩).1 (by decide),
   ⟨((capture_error_cleanup 5 ⟨true, none, true⟩ CaptureErr.identify ⟨false, true⟩).2
        (by decide)).1,
    ((capture_error_cleanup 5 ⟨true, none, true⟩ CaptureErr.identify ⟨false, true⟩).2
        (by decide)).2 (by decide)⟩⟩

/-- C10: if the install-extension statement fails during Setup (after a
successful connect and type refresh), Setup discards the error and
returns nil, and the slot-creation statement is not executed even when
CreateSlot is true. -/
theorem setup_install_error_swallowed (createSlot : Bool) (env : SetupEnv)
    (hc : env.connectOk = true) (hr : env.refreshTypeOk = true)
    (hi : env.installExtensionOk = false) :
    setup createSlot env = ⟨none, false⟩ := by
  rcases env with ⟨co, rt, ie, cs⟩
  simp only at hc hr hi
  subst hc
  subst hr
  subst hi
  simp [setup]

theorem setup_install_error_swallowed_witness :
    setup true ⟨true, true, false, true⟩ = ⟨none, false⟩ :=
  setup_install_error_swallowed true ⟨true, true, false, true⟩ rfl rfl rfl

theorem wrapInt64_of_bounds (z : Int) (h1 : -(2 ^ 63) ≤ z) (h2 : z < 2 ^ 63) :
    wrapInt64 z = z := by
  rw [wrapInt64, Int.emod_eq_of_lt (by omega) (by omega)]
  omega

theorem uint64ToInt64_of_lt (n : Nat) (h : n < 2 ^ 63) : uint64ToInt64 n = n := by
  rw [uint64ToInt64, Nat.mod_eq_of_lt (by omega)]
  exact wrapInt64_of_bounds _ (by omega) (by omega)

theorem PGTime2Time_unixNano (ts : Nat) (h : ts < 2 ^ 62) :
    (PGTime2Time ts).unixNano = 946684800 * 1000000000 + (ts : Int) * 1000 := by
  have h63 : ts < 2 ^ 63 := by omega
  have hu : uint64ToInt64 ts = (ts : Int) := uint64ToInt64_of_lt ts h63
  have hmicro : wrapInt64 (microsecFromUnixEpochToY2K + uint64ToInt64 ts)
      = 946684800000000 + (ts : Int) := by
    rw [hu, microsecFromUnixEpochToY2K]
    exact wrapInt64_of_bounds _ (by omega) (by omega)
  have ha0 : (0 : Int) ≤ 946684800000000 + (ts : Int) := by omega
  have htd : (946684800000000 + (ts : Int)).tdiv 1000000
      = (946684800000000 + (ts : Int)) / 1000000 := Int.tdiv_eq_ediv ha0 (by omega)
  have htm : (946684800000000 + (ts : Int)).tmod 1000000
      = (946684800000000 + (ts : Int)) % 1000000 := by
    rw [Int.tmod_eq_emod ha0 (by omega)]
  simp only [PGTime2Time, GoTime.unixNano, microInSecond, nsInSecond, hmicro, htd, htm]
  omega

/-- C8: PGTime2Time maps timestamp 0 to `time.Unix(946684800, 0)`, i.e.
2000-01-01T00:00:00Z, and maps 1,000,000 to exactly one second later; in
general, for every timestamp below `2 ^ 62` microseconds the resulting
instant is 946684800 seconds plus exactly ts microseconds after the Unix
epoch, preserving the epoch offset and microsecond precision. -/
theorem pgtime_conversion :
    PGTime2Time 0 = ⟨946684800, 0⟩ ∧
    PGTime2Time 1000000 = ⟨946684801, 0⟩ ∧
    ∀ ts : Nat, ts < 2 ^ 62 →
      (PGTime2Time ts).unixNano = 946684800 * 1000000000 + (ts : Int) * 1000 :=
  ⟨by decide, by decide, fun ts h => PGTime2Time_unixNano ts h⟩

theorem pgtime_conversion_witness :
    (PGTime2Time 123).unixNano = 946684800 * 1000000000 + (123 : Int) * 1000 :=
  pgtime_conversion.2.2 123 (by norm_num)

/-- C3, counterexample: an error detected inside the running fetch loop
(here an unexpected protocol message) makes the capture goroutine invoke
`log.Fatalf`, i.e. unconditional process termination — not a terminal
signal retrievable by the host. -/
theorem loop_error_process_exit_counterexample :
    goroutineExit (fetchLoop refreshAlwaysOk (fetchInit 0) [tickUnexpected]).2 =
      [TermEvent.fatalProcessExit FetchErr.unexpectedMessage] := by decide

/-- C3, amended: every error returned by the fetch loop is escalated by
the capture goroutine to unconditional process termination via
`log.Fatalf`; since `os.Exit` skips the deferred calls, neither the
output-channel close nor connection cleanup runs, so no error value is
retrievable after a channel close. -/
theorem loop_error_escalates_to_process_exit (e : FetchErr) :
    goroutineExit (LoopOutcome.failed e) = [TermEvent.fatalProcessExit e] ∧
    TermEvent.closeChanges ∉ goroutineExit (LoopOutcome.failed e) ∧
    TermEvent.runCleanup ∉ goroutineExit (LoopOutcome.failed e) := by
  refine ⟨rfl, ?_, ?_⟩ <;> simp [goroutineExit]

/-- C4, counterexample: in the clean-shutdown sequence the stop channel
is closed strictly before `cleanup()` runs, so `Stop()` — whose receive on
the stop channel completes as soon as that channel is closed — can return
while the connections are still open and the background task has not yet
exited. -/
theorem stop_return_before_cleanup_counterexample :
    stopReturnEnabledAt < List.indexOf TermEvent.runCleanup cleanShutdownEvents := by decide

/-- C4, amended: after `Stop()` returns, the output channel is already
closed (its close strictly precedes the stop-channel close) and closing a
channel drops no buffered `Change`, so every change placed before the stop
remains retrievable; but connection cleanup runs strictly after the
stop-channel close, so the background task may still be running and the
connections may still be open when `Stop()` returns. -/
theorem stop_shutdown_order :
    List.indexOf TermEvent.closeChanges cleanShutdownEvents < stopReturnEnabledAt ∧
    stopReturnEnabledAt < List.indexOf TermEvent.runCleanup cleanShutdownEvents ∧
    ∀ (c : GoChan Change), (GoChan.close c).drain = c.buffer ∧ (GoChan.close c).closed = true :=
  ⟨by decide, by decide, fun c => ⟨rfl, rfl⟩⟩

theorem dispatch_ddl_ok (refreshOk : Nat → Bool) (s : FetchState) (ev : List Event)
    (x : XLogRecord) (hd : x.dec = DecodeResult.msg (PBMsg.change false true))
    (hro : refreshOk s.refreshCount = true) :
    dispatch refreshOk s (RecvMsg.xlog (some x)) ev =
      StepResult.next { s with refreshCount := s.refreshCount + 1 }
        (ev ++ [Event.decodeCall x.walStart x.walDataLen,
                Event.refreshCall s.refreshCount,
                Event.emit ⟨⟨x.walStart + x.walDataLen, s.commitTime⟩,
                  PBMsg.change false true⟩]) := by
  simp [dispatch, hd, hro, emitChange]

theorem dispatch_ddl_fail (refreshOk : Nat → Bool) (s : FetchState) (ev : List Event)
    (x : XLogRecord) (hd : x.dec = DecodeResult.msg (PBMsg.change false true))
    (hro : refreshOk s.refreshCount = false) :
    dispatch refreshOk s (RecvMsg.xlog (some x)) ev =
      StepResult.fail (FetchErr.refreshFailed s.refreshCount)
        (ev ++ [Event.decodeCall x.walStart x.walDataLen,
                Event.refreshCall s.refreshCount]) := by
  simp [dispatch, hd, hro]

/-- C7: a decoded change classified DDL causes exactly one RefreshType
call, placed strictly before the change is forwarded on the output channel
and before any event of any later iteration (in particular before any
later decode); and if the refresh returns an error, the fetch loop
terminates with that error and the DDL change is never forwarded. -/
theorem ddl_refresh_before_forward (refreshOk : Nat → Bool) (s : FetchState) (t : Tick)
    (ts : List Tick) (x : XLogRecord)
    (hx : t.recv = RecvMsg.xlog (some x))
    (hd : x.dec = DecodeResult.msg (PBMsg.change false true))
    (hreach : s.nextReportTime < t.now → t.sendOk = true ∧ t.stopped = false) :
    (∀ e ∈ reportPre s t, e = Event.report t.ack) ∧
    (refreshOk s.refreshCount = true →
      (afterDDL s t).refreshCount = s.refreshCount + 1 ∧
      fetchLoop refreshOk s (t :: ts) =
        (reportPre s t ++ Event.decodeCall x.walStart x.walDataLen ::
          Event.refreshCall s.refreshCount ::
          Event.emit ⟨⟨x.walStart + x.walDataLen, s.commitTime⟩, PBMsg.change false true⟩ ::
          (fetchLoop refreshOk (afterDDL s t) ts).1,
         (fetchLoop refreshOk (afterDDL s t) ts).2)) ∧
    (refreshOk s.refreshCount = false →
      fetchLoop refreshOk s (t :: ts) =
        (reportPre s t ++ [Event.decodeCall x.walStart x.walDataLen,
          Event.refreshCall s.refreshCount],
         LoopOutcome.failed (FetchErr.refreshFailed s.refreshCount))) := by
  by_cases hrep : s.nextReportTime < t.now
  · rcases hreach hrep with ⟨hs, hn⟩
    have hpre : reportPre s t = [Event.report t.ack] := if_pos hrep
    have hA : afterDDL s t =
        { s with nextReportTime := t.now + reportInterval,
                 refreshCount := s.refreshCount + 1 } := if_pos hrep
    refine ⟨?_, ?_, ?_⟩
    · intro e he
      rw [hpre] at he
      simpa using he
    · intro hro
      refine ⟨by rw [hA], ?_⟩
      have hstep : fetchStep refreshOk s t = StepResult.next (afterDDL s t)
          ([Event.report t.ack] ++ [Event.decodeCall x.walStart x.walDataLen,
            Event.refreshCall s.refreshCount,
            Event.emit ⟨⟨x.walStart + x.walDataLen, s.commitTime⟩,
              PBMsg.change false true⟩]) := by
        rw [fetchStep, if_pos hrep, hs]
        simp only [if_true]
        rw [hn]
        simp only [Bool.false_eq_true, if_false]
        rw [hx, hA]
        exact dispatch_ddl_ok refreshOk _ _ x hd hro
      simp [fetchLoop, hstep, hpre]
    · intro hro
      have hstep : fetchStep refreshOk s t = StepResult.fail
          (FetchErr.refreshFailed s.refreshCount)
          ([Event.report t.ack] ++ [Event.decodeCall x.walStart x.walDataLen,
            Event.refreshCall s.refreshCount]) := by
        rw [fetchStep, if_pos hrep, hs]
        simp only [if_true]
        rw [hn]
        simp only [Bool.false_eq_true, if_false]
        rw [hx]
        exact dispatch_ddl_fail refreshOk _ _ x hd hro
      simp [fetchLoop, hstep, hpre]
  · have hpre : reportPre s t = [] := if_neg hrep
    have hA : afterDDL s t = { s with refreshCount := s.refreshCount + 1 } := if_neg hrep
    refine ⟨?_, ?_, ?_⟩
    · intro e he
      rw [hpre] at he
      simp at he
    · intro hro
      refine ⟨by rw [hA], ?_⟩
      have hstep : fetchStep refreshOk s t = StepResult.next (afterDDL s t)
          ([] ++ [Event.decodeCall x.walStart x.walDataLen,
            Event.refreshCall s.refreshCount,
            Event.emit ⟨⟨x.walStart + x.walDataLen, s.commitTime⟩,
              PBMsg.change false true⟩]) := by
        rw [fetchStep, if_neg hrep, hx, hA]
        exact dispatch_ddl_ok refreshOk _ _ x hd hro
      simp [fetchLoop, hstep, hpre]
    · intro hro
      have hstep : fetchStep refreshOk s t = StepResult.fail
          (FetchErr.refreshFailed s.refreshCount)
          ([] ++ [Event.decodeCall x.walStart x.walDataLen,
            Event.refreshCall s.refreshCount]) := by
        rw [fetchStep, if_neg hrep, hx]
        exact dispatch_ddl_fail refreshOk _ _ x hd hro
      simp [fetchLoop, hstep, hpre]

theorem ddl_refresh_before_forward_witness :
    fetchLoop refreshAlwaysOk (fetchInit 0) [tickChangeDDL] =
      ([Event.decodeCall 120 5, Event.refreshCall 0,
        Event.emit ⟨⟨125, none⟩, PBMsg.change false true⟩], LoopOutcome.running) := by
  have h := (ddl_refresh_before_forward refreshAlwaysOk (fetchInit 0) tickChangeDDL []
      ⟨120, 5, DecodeResult.msg (PBMsg.change false true)⟩ rfl rfl (by decide)).2.1 rfl
  rw [h.2]
  simp [reportPre, afterDDL, fetchLoop, fetchInit]
  decide

end PGCapture
